import Mathlib

/-!
# ESP32 stepper / LED controller (`src/main.cpp`)

A shallow embedding of the firmware's global variables, its persisted
`Preferences` store, its output pins, the `setup` initialisation, the eight
POST handlers registered in `setup`, and the `loop` body.

Modelling conventions

* Every `int` of the program is an `Int`; the only place where a conversion to
  an unsigned 32-bit argument can change a value (`delayMicroseconds(period)`)
  reduces modulo `2^32` explicitly.
* The program is stateful: each function is a map `Sys → Sys`.  `Sys` holds the
  globals, the current level of the four output pins, the persisted store and
  an append-only `log` of the externally visible actions (pin writes, delays,
  persisted writes, HTTP redirects) in program order.
* A handler run and a `loop` pass are atomic steps (the cooperative model of
  the specification, section 5).
* The request parameter of `/setsteps` and `/setperiod` is an `Option Int`:
  `none` when `hasParam` is false, `some v` when the parameter is present and
  `value().toInt()` is `v`.
* Serial output, WiFi association and the `GET /` page are not modelled; a
  write to the store is assumed to succeed.
-/

namespace Esp32Stepper

/-! ## Data model -/

/-- Logic level of a digital output (`LOW` / `HIGH`). -/
inductive Level where
  | LOW
  | HIGH
  deriving DecidableEq, Repr

/-- The type `enum MotorState { MOTOR_STOP, MOTOR_UP, MOTOR_DOWN }` (line 34). -/
inductive MotorState where
  | MOTOR_STOP
  | MOTOR_UP
  | MOTOR_DOWN
  deriving DecidableEq, Repr

/-- The cast `(int)state` of line 46: enumerators are numbered from 0. -/
def MotorState.toInt : MotorState → Int
  | .MOTOR_STOP => 0
  | .MOTOR_UP => 1
  | .MOTOR_DOWN => 2

/-- The cast `(MotorState)state` of line 54.  A stored integer other than 1 or 2
is read as `MOTOR_STOP`: every use of `motorState` in the program (the
comparisons with `MOTOR_UP` / `MOTOR_DOWN` in the handlers and the two
`switch` statements with their `default:` arm) treats such a value exactly as
`MOTOR_STOP`. -/
def MotorState.ofInt (i : Int) : MotorState :=
  if i = 1 then .MOTOR_UP else if i = 2 then .MOTOR_DOWN else .MOTOR_STOP

/-- The persisted store: the three namespaces the program opens, each with its
single key.  `none` means the key has never been written. -/
structure Preferences where
  /-- Namespace "period", key "value" (`putInt` / `getInt`). -/
  period_value : Option Int
  /-- Namespace "motor", key "state" (`putInt` / `getInt`). -/
  motor_state : Option Int
  /-- Namespace "led", key "state" (`putBool` / `getBool`). -/
  led_state : Option Bool
  deriving DecidableEq, Repr

/-- Externally visible actions, in the order the program performs them. -/
inductive Effect where
  | pinMode (pin : Nat)
  | digitalWrite (pin : Nat) (level : Level)
  | delayMicroseconds (us : Int)
  | delay (ms : Int)
  | putInt (ns : String) (key : String) (value : Int)
  | putBool (ns : String) (key : String) (value : Bool)
  | redirect (url : String)
  deriving DecidableEq, Repr

/-- Pin assignments (lines 14-17). -/
def ledPin : Nat := 2
def PIN_U1_EN : Nat := 13
def PIN_U1_STEP : Nat := 33
def PIN_U1_DIR : Nat := 32

/-- The whole program state. -/
structure Sys where
  /-- Global `int period` (line 18). -/
  period : Int
  /-- Global `MotorState motorState` (line 35). -/
  motorState : MotorState
  /-- Global `volatile bool isMovingSteps` (line 38), the busy flag. -/
  isMovingSteps : Bool
  /-- Global `volatile int stepsToMove` (line 39). -/
  stepsToMove : Int
  /-- Global `volatile int stepDirection` (line 40): 1 = UP, -1 = DOWN. -/
  stepDirection : Int
  /-- Global `int fixedStepCount` (line 42). -/
  fixedStepCount : Int
  /-- Global `bool ledState` (line 61). -/
  ledState : Bool
  /-- Level last written to `ledPin`. -/
  outLed : Level
  /-- Level last written to `PIN_U1_EN` (active low enable). -/
  outEn : Level
  /-- Level last written to `PIN_U1_STEP`. -/
  outStep : Level
  /-- Level last written to `PIN_U1_DIR`. -/
  outDir : Level
  /-- Global `Preferences preferences` (line 11): the persisted store. -/
  preferences : Preferences
  /-- Actions performed so far, oldest first. -/
  log : List Effect
  deriving DecidableEq, Repr

/-! ## Hardware and library primitives -/

/-- Appends one action to the log. -/
def emit (e : Effect) (s : Sys) : Sys :=
  { s with log := s.log ++ [e] }

def pinMode (pin : Nat) (s : Sys) : Sys :=
  emit (.pinMode pin) s

/-- The call `digitalWrite(pin, level)`: records the write and latches the level. -/
def digitalWrite (pin : Nat) (level : Level) (s : Sys) : Sys :=
  let s := emit (.digitalWrite pin level) s
  if pin = ledPin then { s with outLed := level }
  else if pin = PIN_U1_EN then { s with outEn := level }
  else if pin = PIN_U1_STEP then { s with outStep := level }
  else if pin = PIN_U1_DIR then { s with outDir := level }
  else s

/-- The call `delayMicroseconds(us)`: the parameter is an unsigned 32-bit
integer, so an `int` argument is reduced modulo `2^32`. -/
def delayMicroseconds (us : Int) (s : Sys) : Sys :=
  emit (.delayMicroseconds (us % 4294967296)) s

/-- The call `delay(ms)`. -/
def delay (ms : Int) (s : Sys) : Sys :=
  emit (.delay ms) s

/-- The call `request->redirect(url)`. -/
def redirect (url : String) (s : Sys) : Sys :=
  emit (.redirect url) s

/-! ## Persistence (lines 20-74) -/

def savePeriod (value : Int) (s : Sys) : Sys :=
  emit (.putInt "period" "value" value)
    { s with preferences := { s.preferences with period_value := some value } }

def loadPeriod (s : Sys) : Int :=
  s.preferences.period_value.getD 150

def saveMotorState (state : MotorState) (s : Sys) : Sys :=
  emit (.putInt "motor" "state" state.toInt)
    { s with preferences := { s.preferences with motor_state := some state.toInt } }

def loadMotorState (s : Sys) : MotorState :=
  MotorState.ofInt (s.preferences.motor_state.getD MotorState.MOTOR_STOP.toInt)

def saveLedState (state : Bool) (s : Sys) : Sys :=
  emit (.putBool "led" "state" state)
    { s with preferences := { s.preferences with led_state := some state } }

def loadLedState (s : Sys) : Bool :=
  s.preferences.led_state.getD false

/-! ## `setup` (lines 151-167) -/

/-- The state-initialising part of `setup`: lines 153-167. -/
def setup (s : Sys) : Sys :=
  let s := pinMode ledPin s
  let s := { s with ledState := loadLedState s }
  let s := digitalWrite ledPin (if s.ledState then .HIGH else .LOW) s
  let s := pinMode PIN_U1_EN s
  let s := pinMode PIN_U1_STEP s
  let s := pinMode PIN_U1_DIR s
  let s := digitalWrite PIN_U1_EN .HIGH s
  let s := digitalWrite PIN_U1_STEP .LOW s
  let s := digitalWrite PIN_U1_DIR .HIGH s
  let s := { s with motorState := loadMotorState s }
  { s with period := loadPeriod s }

/-! ## `loop` (lines 318-359) -/

/-- One step pulse: the body of the `for` loop (lines 325-328), which is also
the pulse of the continuous branches (lines 341-344 and 349-352). -/
def stepPulse (s : Sys) : Sys :=
  let s := digitalWrite PIN_U1_STEP .HIGH s
  let s := delayMicroseconds s.period s
  let s := digitalWrite PIN_U1_STEP .LOW s
  delayMicroseconds s.period s

/-- The loop `for (int i = 0; i < stepsToMove; ++i)` of line 324 with `k`
iterations left. -/
def stepLoop : Nat → Sys → Sys
  | 0, s => s
  | k + 1, s => stepLoop k (stepPulse s)

/-- One pass of `loop()`.  The `for` loop runs once for every `i` with
`0 ≤ i < stepsToMove`, that is `stepsToMove.toNat` times. -/
def loop (s : Sys) : Sys :=
  if s.isMovingSteps then
    let s := digitalWrite PIN_U1_DIR (if s.stepDirection = 1 then .HIGH else .LOW) s
    let s := digitalWrite PIN_U1_EN .LOW s
    let s := stepLoop s.stepsToMove.toNat s
    let s := digitalWrite PIN_U1_EN .HIGH s
    let s := { s with isMovingSteps := false }
    let s := { s with motorState := .MOTOR_STOP }
    saveMotorState s.motorState s
  else
    match s.motorState with
    | .MOTOR_UP =>
      let s := digitalWrite PIN_U1_DIR .HIGH s
      let s := digitalWrite PIN_U1_EN .LOW s
      let s := digitalWrite PIN_U1_STEP .HIGH s
      let s := delayMicroseconds s.period s
      let s := digitalWrite PIN_U1_STEP .LOW s
      delayMicroseconds s.period s
    | .MOTOR_DOWN =>
      let s := digitalWrite PIN_U1_DIR .LOW s
      let s := digitalWrite PIN_U1_EN .LOW s
      let s := digitalWrite PIN_U1_STEP .HIGH s
      let s := delayMicroseconds s.period s
      let s := digitalWrite PIN_U1_STEP .LOW s
      delayMicroseconds s.period s
    | .MOTOR_STOP =>
      digitalWrite PIN_U1_EN .HIGH s

/-! ## POST handlers (lines 194-313) -/

/-- Handler of `/setsteps` (lines 194-206). -/
def setsteps (steps : Option Int) (s : Sys) : Sys :=
  if s.isMovingSteps then redirect "/" s
  else
    let s :=
      match steps with
      | some newSteps =>
        if newSteps ≥ 1 ∧ newSteps ≤ 10000 then { s with fixedStepCount := newSteps } else s
      | none => s
    redirect "/" s

/-- Handler of `/setperiod` (lines 208-221). -/
def setperiod (param : Option Int) (s : Sys) : Sys :=
  if s.isMovingSteps then redirect "/" s
  else
    let s :=
      match param with
      | some newPeriod =>
        if newPeriod ≥ 10 ∧ newPeriod ≤ 10000 then
          let s := { s with period := newPeriod }
          savePeriod s.period s
        else s
      | none => s
    redirect "/" s

/-- Handler of `/toggleled` (lines 223-232). -/
def toggleled (s : Sys) : Sys :=
  if s.isMovingSteps then redirect "/" s
  else
    let s := { s with ledState := !s.ledState }
    let s := digitalWrite ledPin (if s.ledState then .HIGH else .LOW) s
    let s := saveLedState s.ledState s
    redirect "/" s

/-- Handler of `/moveup` (lines 234-253). -/
def moveup (s : Sys) : Sys :=
  if s.isMovingSteps then redirect "/" s
  else if s.motorState = .MOTOR_UP then redirect "/" s
  else
    let s :=
      if s.motorState = .MOTOR_DOWN then
        let s := { s with motorState := .MOTOR_STOP }
        let s := saveMotorState s.motorState s
        delay 200 s
      else s
    let s := { s with motorState := .MOTOR_UP }
    let s := saveMotorState s.motorState s
    redirect "/" s

/-- Handler of `/movedown` (lines 254-273). -/
def movedown (s : Sys) : Sys :=
  if s.isMovingSteps then redirect "/" s
  else if s.motorState = .MOTOR_DOWN then redirect "/" s
  else
    let s :=
      if s.motorState = .MOTOR_UP then
        let s := { s with motorState := .MOTOR_STOP }
        let s := saveMotorState s.motorState s
        delay 200 s
      else s
    let s := { s with motorState := .MOTOR_DOWN }
    let s := saveMotorState s.motorState s
    redirect "/" s

/-- Handler of `/stop` (lines 274-282). -/
def stop (s : Sys) : Sys :=
  if s.isMovingSteps then redirect "/" s
  else
    let s := { s with motorState := .MOTOR_STOP }
    let s := saveMotorState s.motorState s
    redirect "/" s

/-- The three assignments that start a fixed-step move (lines 290-292 and
305-307); `dir` is 1 for UP and -1 for DOWN. -/
def startFixedMove (dir : Int) (s : Sys) : Sys :=
  let s := { s with isMovingSteps := true }
  let s := { s with stepsToMove := s.fixedStepCount }
  { s with stepDirection := dir }

/-- Handler of `/moveupsteps` up to its wait loop (lines 285-292): a busy
request is answered at once, an accepted one starts the move and the handler
then blocks at line 294 without touching the state. -/
def moveupstepsEnter (s : Sys) : Sys :=
  if s.isMovingSteps then redirect "/" s
  else startFixedMove 1 s

/-- Handler of `/movedownsteps` up to its wait loop (lines 300-307). -/
def movedownstepsEnter (s : Sys) : Sys :=
  if s.isMovingSteps then redirect "/" s
  else startFixedMove (-1) s

/-- The wait `while (isMovingSteps) { delay(10); }` of lines 294-296 and
309-311.  While the handler sleeps in `delay(10)` the main task runs a pass of
`loop`; `fuel` bounds the number of iterations and `none` means the bound was
reached with the flag still set. -/
def waitWhileMoving : Nat → Sys → Option Sys
  | 0, s => if s.isMovingSteps then none else some s
  | fuel + 1, s =>
    if s.isMovingSteps then waitWhileMoving fuel (loop (delay 10 s)) else some s

/-- Whole handler of `/moveupsteps` (lines 285-298), run to completion. -/
def moveupsteps (fuel : Nat) (s : Sys) : Option Sys :=
  if s.isMovingSteps then some (redirect "/" s)
  else (waitWhileMoving fuel (startFixedMove 1 s)).map (redirect "/")

/-- Whole handler of `/movedownsteps` (lines 300-313), run to completion. -/
def movedownsteps (fuel : Nat) (s : Sys) : Option Sys :=
  if s.isMovingSteps then some (redirect "/" s)
  else (waitWhileMoving fuel (startFixedMove (-1) s)).map (redirect "/")

/-! ## Executions -/

/-- The state right after reset: every global has its initialiser (lines 18,
35, 38-42, 61), the store is the one left by the previous run, nothing has been
logged, and the outputs read low until `setup` drives them. -/
def powerOn (p : Preferences) : Sys :=
  { period := 150
    motorState := .MOTOR_STOP
    isMovingSteps := false
    stepsToMove := 0
    stepDirection := 1
    fixedStepCount := 100
    ledState := false
    outLed := .LOW
    outEn := .LOW
    outStep := .LOW
    outDir := .LOW
    preferences := p
    log := [] }

/-- Boot: reset followed by `setup`. -/
def boot (p : Preferences) : Sys :=
  setup (powerOn p)

/-- Restart of a running system: only the persisted store survives. -/
def restart (s : Sys) : Sys :=
  boot s.preferences

/-- A store in which no key has been written. -/
def emptyPreferences : Preferences :=
  { period_value := none, motor_state := none, led_state := none }

/-- The atomic steps of an execution: a request to one of the eight POST routes
(for the two fixed-step routes, the handler up to its wait loop) or one pass of
`loop`. -/
inductive Event where
  | setsteps (steps : Option Int)
  | setperiod (param : Option Int)
  | toggleled
  | moveup
  | movedown
  | stop
  | moveupsteps
  | movedownsteps
  | loop
  deriving DecidableEq, Repr

def Event.apply : Event → Sys → Sys
  | .setsteps v, s => Esp32Stepper.setsteps v s
  | .setperiod v, s => Esp32Stepper.setperiod v s
  | .toggleled, s => Esp32Stepper.toggleled s
  | .moveup, s => Esp32Stepper.moveup s
  | .movedown, s => Esp32Stepper.movedown s
  | .stop, s => Esp32Stepper.stop s
  | .moveupsteps, s => moveupstepsEnter s
  | .movedownsteps, s => movedownstepsEnter s
  | .loop, s => Esp32Stepper.loop s

/-- Runs a sequence of events, first event first. -/
def run : List Event → Sys → Sys
  | [], s => s
  | e :: es, s => run es (e.apply s)

/-! ## Observations on the log -/

/-- One step pulse with half-period `us`, as a list of actions. -/
def pulseTrace (us : Int) : List Effect :=
  [.digitalWrite PIN_U1_STEP .HIGH, .delayMicroseconds us,
   .digitalWrite PIN_U1_STEP .LOW, .delayMicroseconds us]

/-- The trace of `n` consecutive step pulses. -/
def pulsesTrace : Nat → Int → List Effect
  | 0, _ => []
  | n + 1, us => pulseTrace us ++ pulsesTrace n us

/-- Time, in microseconds, spent in the delays of a trace. -/
def blockedMicros : List Effect → Int
  | [] => 0
  | .delayMicroseconds us :: es => us + blockedMicros es
  | .delay ms :: es => 1000 * ms + blockedMicros es
  | _ :: es => blockedMicros es

/-- Whether an action is a write to the persisted store. -/
def Effect.isPersistedWrite : Effect → Bool
  | .putInt _ _ _ => true
  | .putBool _ _ _ => true
  | _ => false

/-- The writes to the persisted store in a trace, in order. -/
def persistedWrites (es : List Effect) : List Effect :=
  es.filter Effect.isPersistedWrite

/-- The targets of the redirects sent in a trace, in order. -/
def responses (es : List Effect) : List String :=
  es.filterMap fun e =>
    match e with
    | .redirect url => some url
    | _ => none

/-- The values written to the key "state" of namespace "motor" in a trace, in
order, read back as motor states. -/
def motorWrites (es : List Effect) : List MotorState :=
  es.filterMap fun e =>
    match e with
    | .putInt ns key value =>
      if ns = "motor" ∧ key = "state" then some (MotorState.ofInt value) else none
    | _ => none

/-- The transitions of the motor state machine: STOP to anything (a repeat of
STOP included) and anything to STOP; never UP to DOWN, DOWN to UP, or a repeat
of UP or DOWN. -/
def motorStepAllowed : MotorState → MotorState → Bool
  | .MOTOR_STOP, _ => true
  | _, .MOTOR_STOP => true
  | _, _ => false

/-- What a scan of a trace remembers in order to judge direction reversals. -/
structure PulseScan where
  /-- Level last written to the direction line. -/
  dir : Level
  /-- Direction level at the most recent step pulse, if there was one. -/
  lastPulseDir : Option Level
  /-- Whether a delay of at least 200 ms occurred since the most recent pulse. -/
  settled : Bool
  /-- Whether no pulse so far reversed direction without such a delay. -/
  ok : Bool
  deriving DecidableEq, Repr

/-- The scan before any action. -/
def PulseScan.start : PulseScan :=
  { dir := .LOW, lastPulseDir := none, settled := false, ok := true }

/-- Advances the scan by one action.  A step pulse begins with the write of
HIGH to the STEP pin and has the direction the DIR pin shows at that moment. -/
def PulseScan.step (st : PulseScan) : Effect → PulseScan
  | .digitalWrite pin level =>
    if pin = PIN_U1_DIR then { st with dir := level }
    else if pin = PIN_U1_STEP ∧ level = .HIGH then
      { st with
        lastPulseDir := some st.dir
        settled := false
        ok := st.ok &&
          (match st.lastPulseDir with
           | none => true
           | some d => decide (d = st.dir) || st.settled) }
    else st
  | .delay ms => if 200 ≤ ms then { st with settled := true } else st
  | _ => st

/-- The scan of a whole trace, oldest action first. -/
def PulseScan.run (es : List Effect) : PulseScan :=
  es.foldl PulseScan.step PulseScan.start

/-- Whether, in a trace, every two consecutive step pulses with different
direction levels have a delay of at least 200 ms between them. -/
def reversalsSettled (es : List Effect) : Bool :=
  (PulseScan.run es).ok

/-- Whether an event is `/stop` or one of the two fixed-step requests. -/
def Event.isStopOrFixedMove : Event → Bool
  | .stop => true
  | .moveupsteps => true
  | .movedownsteps => true
  | _ => false

/-! ## Auxiliary facts about the step loop -/

theorem emod_of_int_range {p : Int} (h0 : 0 ≤ p) (h1 : p < 2147483648) :
    p % 4294967296 = p :=
  Int.emod_eq_of_lt h0 (by omega)

theorem stepPulse_eq (s : Sys) :
    stepPulse s =
      { s with
        outStep := .LOW
        log := s.log ++ pulseTrace (s.period % 4294967296) } := by
  simp [stepPulse, digitalWrite, delayMicroseconds, emit, pulseTrace, ledPin, PIN_U1_EN,
    PIN_U1_STEP, PIN_U1_DIR]

theorem stepLoop_eq (k : Nat) (s : Sys) :
    stepLoop k s =
      { s with
        outStep := if k = 0 then s.outStep else .LOW
        log := s.log ++ pulsesTrace k (s.period % 4294967296) } := by
  induction k generalizing s with
  | zero => simp [stepLoop, pulsesTrace]
  | succ k ih =>
    rw [stepLoop, ih, stepPulse_eq]
    by_cases hk : k = 0 <;> simp [hk, pulsesTrace, List.append_assoc]

/-! ## Fixed-step moves -/

/-- The rest of a `loop` pass that finds the busy flag set, after the `for`
loop has been replaced by its `stepsToMove.toNat` pulses. -/
theorem loop_busy_eq (s : Sys) (hb : s.isMovingSteps = true) :
    loop s =
      { s with
        isMovingSteps := false
        motorState := .MOTOR_STOP
        outDir := if s.stepDirection = 1 then .HIGH else .LOW
        outEn := .HIGH
        outStep := if s.stepsToMove.toNat = 0 then s.outStep else .LOW
        preferences := { s.preferences with motor_state := some 0 }
        log := s.log ++
          [.digitalWrite PIN_U1_DIR (if s.stepDirection = 1 then .HIGH else .LOW),
           .digitalWrite PIN_U1_EN .LOW] ++
          pulsesTrace s.stepsToMove.toNat (s.period % 4294967296) ++
          [.digitalWrite PIN_U1_EN .HIGH, .putInt "motor" "state" 0] } := by
  simp [loop, hb, stepLoop_eq, digitalWrite, saveMotorState, emit, MotorState.toInt, ledPin,
    PIN_U1_EN, PIN_U1_STEP, PIN_U1_DIR, List.append_assoc]

/-- C1: in a non-busy state with `fixedStepCount = n` and `period = p`,
accepting `/moveupsteps` (resp. `/movedownsteps`) logs nothing, and the `loop`
pass that follows logs exactly: one write of the direction line (HIGH for UP,
LOW for DOWN), the enable line driven LOW, `n` pulses each made of STEP HIGH,
wait `p` microseconds, STEP LOW, wait `p` microseconds, the enable line driven
HIGH, and the persisted write of STOP; no other pin write occurs in the pass. -/
theorem fixed_move_emits_exactly_n_pulses (s : Sys) (n : Nat) (p : Int)
    (hidle : s.isMovingSteps = false) (hn : s.fixedStepCount = (n : Int))
    (hp : s.period = p) (hp0 : 0 ≤ p) (hp1 : p < 2147483648) :
    ((moveupstepsEnter s).log = s.log ∧
      (loop (moveupstepsEnter s)).log =
        s.log ++
          [.digitalWrite PIN_U1_DIR .HIGH, .digitalWrite PIN_U1_EN .LOW] ++
          pulsesTrace n p ++
          [.digitalWrite PIN_U1_EN .HIGH, .putInt "motor" "state" 0]) ∧
    ((movedownstepsEnter s).log = s.log ∧
      (loop (movedownstepsEnter s)).log =
        s.log ++
          [.digitalWrite PIN_U1_DIR .LOW, .digitalWrite PIN_U1_EN .LOW] ++
          pulsesTrace n p ++
          [.digitalWrite PIN_U1_EN .HIGH, .putInt "motor" "state" 0]) := by
  have hmod : s.period % 4294967296 = p := by
    rw [hp]; exact emod_of_int_range hp0 hp1
  refine ⟨⟨?_, ?_⟩, ⟨?_, ?_⟩⟩
  · simp [moveupstepsEnter, hidle, startFixedMove]
  · rw [loop_busy_eq _ (by simp [moveupstepsEnter, hidle, startFixedMove])]
    simp [moveupstepsEnter, hidle, startFixedMove, hn, hmod]
  · simp [movedownstepsEnter, hidle, startFixedMove]
  · rw [loop_busy_eq _ (by simp [movedownstepsEnter, hidle, startFixedMove])]
    simp [movedownstepsEnter, hidle, startFixedMove, hn, hmod]

/-- Witness for C1: the state after booting on an empty store, with
`fixedStepCount` set to 3 and the default period 150. -/
theorem fixed_move_emits_exactly_n_pulses_witness :
    (loop (moveupstepsEnter (setsteps (some 3) (boot emptyPreferences)))).log =
      (setsteps (some 3) (boot emptyPreferences)).log ++
        [.digitalWrite PIN_U1_DIR .HIGH, .digitalWrite PIN_U1_EN .LOW] ++
        pulsesTrace 3 150 ++
        [.digitalWrite PIN_U1_EN .HIGH, .putInt "motor" "state" 0] :=
  (fixed_move_emits_exactly_n_pulses (setsteps (some 3) (boot emptyPreferences)) 3 150
    (by decide) (by decide) (by decide) (by decide) (by decide)).1.2

/-! ## Commands received while a fixed-step move is pending -/

/-- C2: when the busy flag is set, each of the eight handlers, whatever its
argument, leaves every global, every output pin and the persisted store as
they are and logs nothing but its redirect to "/"; in particular it performs
no persisted write.  The same holds for the two fixed-step handlers run to
completion. -/
theorem busy_rejects_every_command (s : Sys) (v w : Option Int) (fuel : Nat)
    (hbusy : s.isMovingSteps = true) :
    (∀ h ∈ [setperiod v, setsteps w, toggleled, moveup, movedown, stop,
          moveupstepsEnter, movedownstepsEnter],
        h s = { s with log := s.log ++ [Effect.redirect "/"] } ∧
        persistedWrites (h s).log = persistedWrites s.log) ∧
    moveupsteps fuel s = some { s with log := s.log ++ [Effect.redirect "/"] } ∧
    movedownsteps fuel s = some { s with log := s.log ++ [Effect.redirect "/"] } := by
  refine ⟨?_, ?_, ?_⟩
  · intro h hh
    simp only [List.mem_cons, List.mem_singleton, List.not_mem_nil, or_false] at hh
    rcases hh with rfl | rfl | rfl | rfl | rfl | rfl | rfl | rfl <;>
      simp [setperiod, setsteps, toggleled, moveup, movedown, stop, moveupstepsEnter,
        movedownstepsEnter, hbusy, redirect, emit, persistedWrites, Effect.isPersistedWrite]
  · simp [moveupsteps, hbusy, redirect, emit]
  · simp [movedownsteps, hbusy, redirect, emit]

/-- Witness for C2: the busy state reached by accepting `/moveupsteps` after
booting on an empty store. -/
theorem busy_rejects_every_command_witness :
    (moveupstepsEnter (boot emptyPreferences)).isMovingSteps = true ∧
    stop (moveupstepsEnter (boot emptyPreferences)) =
      { moveupstepsEnter (boot emptyPreferences) with
        log := (moveupstepsEnter (boot emptyPreferences)).log ++ [Effect.redirect "/"] } :=
  ⟨by decide,
   ((busy_rejects_every_command (moveupstepsEnter (boot emptyPreferences)) (some 500) (some 7) 1
      (by decide)).1 stop (by simp)).1⟩

/-! ## Continuous motion requests -/

/-- C3: in a non-busy state, `/moveup` with the motor running DOWN (resp.
`/movedown` with the motor running UP) performs, in this order, the persisted
write of STOP, a 200 ms delay, the persisted write of the requested direction
and the redirect; these are its only two persisted writes, the state ends in
the requested direction and nothing else changes. -/
theorem reversal_persists_stop_then_direction (s : Sys) (hidle : s.isMovingSteps = false) :
    (s.motorState = .MOTOR_DOWN →
      moveup s =
        { s with
          motorState := .MOTOR_UP
          preferences := { s.preferences with motor_state := some 1 }
          log := s.log ++ [.putInt "motor" "state" 0, .delay 200,
                           .putInt "motor" "state" 1, .redirect "/"] } ∧
      persistedWrites (moveup s).log =
        persistedWrites s.log ++ [.putInt "motor" "state" 0, .putInt "motor" "state" 1]) ∧
    (s.motorState = .MOTOR_UP →
      movedown s =
        { s with
          motorState := .MOTOR_DOWN
          preferences := { s.preferences with motor_state := some 2 }
          log := s.log ++ [.putInt "motor" "state" 0, .delay 200,
                           .putInt "motor" "state" 2, .redirect "/"] } ∧
      persistedWrites (movedown s).log =
        persistedWrites s.log ++ [.putInt "motor" "state" 0, .putInt "motor" "state" 2]) := by
  constructor
  · intro hm
    simp [moveup, hidle, hm, saveMotorState, delay, redirect, emit, MotorState.toInt,
      persistedWrites, Effect.isPersistedWrite]
  · intro hm
    simp [movedown, hidle, hm, saveMotorState, delay, redirect, emit, MotorState.toInt,
      persistedWrites, Effect.isPersistedWrite]

/-- Witness for C3: reversing a motor that runs DOWN, and one that runs UP,
after booting on an empty store. -/
theorem reversal_persists_stop_then_direction_witness :
    (moveup (movedown (boot emptyPreferences))).motorState = .MOTOR_UP ∧
    persistedWrites (moveup (movedown (boot emptyPreferences))).log =
      persistedWrites (movedown (boot emptyPreferences)).log ++
        [.putInt "motor" "state" 0, .putInt "motor" "state" 1] ∧
    persistedWrites (movedown (moveup (boot emptyPreferences))).log =
      persistedWrites (moveup (boot emptyPreferences)).log ++
        [.putInt "motor" "state" 0, .putInt "motor" "state" 2] :=
  ⟨by decide,
   ((reversal_persists_stop_then_direction (movedown (boot emptyPreferences)) (by decide)).1
      (by decide)).2,
   ((reversal_persists_stop_then_direction (moveup (boot emptyPreferences)) (by decide)).2
      (by decide)).2⟩

/-- C4: in any state (busy or not) whose `motorState` already is the requested
direction, `/moveup` (resp. `/movedown`) changes nothing and logs only its
redirect, so it performs no persisted write; and from every state a second
`/moveup` (resp. `/movedown`) right after the first changes nothing and logs
only its redirect, so two requests in a row leave the same state and the same
persisted writes as one. -/
theorem continuous_request_in_same_direction_is_noop (s : Sys) :
    (s.motorState = .MOTOR_UP →
      moveup s = { s with log := s.log ++ [Effect.redirect "/"] } ∧
      persistedWrites (moveup s).log = persistedWrites s.log) ∧
    (s.motorState = .MOTOR_DOWN →
      movedown s = { s with log := s.log ++ [Effect.redirect "/"] } ∧
      persistedWrites (movedown s).log = persistedWrites s.log) ∧
    (moveup (moveup s) = { moveup s with log := (moveup s).log ++ [Effect.redirect "/"] } ∧
      persistedWrites (moveup (moveup s)).log = persistedWrites (moveup s).log) ∧
    (movedown (movedown s) =
        { movedown s with log := (movedown s).log ++ [Effect.redirect "/"] } ∧
      persistedWrites (movedown (movedown s)).log = persistedWrites (movedown s).log) := by
  refine ⟨?_, ?_, ?_, ?_⟩
  · intro hm
    cases hb : s.isMovingSteps <;>
      simp [moveup, hb, hm, redirect, emit, persistedWrites, Effect.isPersistedWrite]
  · intro hm
    cases hb : s.isMovingSteps <;>
      simp [movedown, hb, hm, redirect, emit, persistedWrites, Effect.isPersistedWrite]
  · cases hb : s.isMovingSteps <;> cases hm : s.motorState <;>
      simp [moveup, hb, hm, saveMotorState, delay, redirect, emit, persistedWrites,
        Effect.isPersistedWrite]
  · cases hb : s.isMovingSteps <;> cases hm : s.motorState <;>
      simp [movedown, hb, hm, saveMotorState, delay, redirect, emit, persistedWrites,
        Effect.isPersistedWrite]

/-- Witness for C4: a second `/moveup`, and a second `/movedown`, after booting
on an empty store. -/
theorem continuous_request_in_same_direction_is_noop_witness :
    (moveup (boot emptyPreferences)).motorState = .MOTOR_UP ∧
    persistedWrites (moveup (moveup (boot emptyPreferences))).log =
      persistedWrites (moveup (boot emptyPreferences)).log ∧
    persistedWrites (movedown (movedown (boot emptyPreferences))).log =
      persistedWrites (movedown (boot emptyPreferences)).log :=
  ⟨by decide,
   ((continuous_request_in_same_direction_is_noop (moveup (boot emptyPreferences))).1
      (by decide)).2,
   ((continuous_request_in_same_direction_is_noop (movedown (boot emptyPreferences))).2.1
      (by decide)).2⟩

/-! ## Boot and restart -/

/-- What `setup` leaves in the globals after a restart: the three persisted
values are reloaded, everything else has its initialiser. -/
theorem restart_globals (s : Sys) :
    (restart s).period = loadPeriod s ∧
    (restart s).ledState = loadLedState s ∧
    (restart s).motorState = loadMotorState s ∧
    (restart s).fixedStepCount = 100 ∧
    (restart s).isMovingSteps = false ∧
    (restart s).preferences = s.preferences := by
  simp [restart, boot, setup, powerOn, pinMode, digitalWrite, emit, loadPeriod, loadLedState,
    loadMotorState, ledPin, PIN_U1_EN, PIN_U1_STEP, PIN_U1_DIR]

/-! ## Parameter changes -/

/-- C5: in a non-busy state, `/setperiod` with a value `p` in `[10, 10000]`
sets `period` to `p` and persists it with one write, so that `loadPeriod`
afterwards, and `period` after a restart, are exactly `p`; with `p < 10` or
`p > 10000` the globals, the pins and the store are unchanged and only the
redirect is logged, so nothing is persisted. -/
theorem setperiod_in_range_persists_else_noop (s : Sys) (p : Int)
    (hidle : s.isMovingSteps = false) :
    (10 ≤ p ∧ p ≤ 10000 →
      setperiod (some p) s =
        { s with
          period := p
          preferences := { s.preferences with period_value := some p }
          log := s.log ++ [.putInt "period" "value" p, .redirect "/"] } ∧
      loadPeriod (setperiod (some p) s) = p ∧
      (restart (setperiod (some p) s)).period = p) ∧
    (p < 10 ∨ 10000 < p →
      setperiod (some p) s = { s with log := s.log ++ [Effect.redirect "/"] } ∧
      persistedWrites (setperiod (some p) s).log = persistedWrites s.log) := by
  constructor
  · rintro ⟨h1, h2⟩
    refine ⟨?_, ?_, ?_⟩
    · simp [setperiod, hidle, h1, h2, savePeriod, redirect, emit]
    · simp [setperiod, hidle, h1, h2, savePeriod, redirect, emit, loadPeriod]
    · rw [(restart_globals _).1]
      simp [setperiod, hidle, h1, h2, savePeriod, redirect, emit, loadPeriod]
  · intro h
    have hn : ¬ (10 ≤ p ∧ p ≤ 10000) := by omega
    simp [setperiod, hidle, hn, redirect, emit, persistedWrites, Effect.isPersistedWrite]

/-- Witness for C5: the values 500 (accepted), 9 and 10001 (rejected) after
booting on an empty store. -/
theorem setperiod_in_range_persists_else_noop_witness :
    (restart (setperiod (some 500) (boot emptyPreferences))).period = 500 ∧
    setperiod (some 9) (boot emptyPreferences) =
      { boot emptyPreferences with
        log := (boot emptyPreferences).log ++ [Effect.redirect "/"] } ∧
    setperiod (some 10001) (boot emptyPreferences) =
      { boot emptyPreferences with
        log := (boot emptyPreferences).log ++ [Effect.redirect "/"] } :=
  ⟨((setperiod_in_range_persists_else_noop (boot emptyPreferences) 500 (by decide)).1
      (by decide)).2.2,
   ((setperiod_in_range_persists_else_noop (boot emptyPreferences) 9 (by decide)).2
      (by decide)).1,
   ((setperiod_in_range_persists_else_noop (boot emptyPreferences) 10001 (by decide)).2
      (by decide)).1⟩

/-- C9: in a non-busy state, `/setsteps` with a value `v` in `[1, 10000]` sets
`fixedStepCount` to `v` and changes nothing else; with `v < 1` or `v > 10000`
it changes nothing at all; in both cases only the redirect is logged, so
nothing is written to the persisted store. -/
theorem setsteps_in_range_updates_memory_only (s : Sys) (v : Int)
    (hidle : s.isMovingSteps = false) :
    (1 ≤ v ∧ v ≤ 10000 →
      setsteps (some v) s =
        { s with fixedStepCount := v, log := s.log ++ [Effect.redirect "/"] }) ∧
    (v < 1 ∨ 10000 < v →
      setsteps (some v) s = { s with log := s.log ++ [Effect.redirect "/"] }) ∧
    (setsteps (some v) s).preferences = s.preferences ∧
    persistedWrites (setsteps (some v) s).log = persistedWrites s.log ∧
    (setsteps (some v) s).period = s.period ∧
    (setsteps (some v) s).ledState = s.ledState ∧
    (setsteps (some v) s).motorState = s.motorState := by
  by_cases hv : 1 ≤ v ∧ v ≤ 10000
  · have hn : ¬ (v < 1 ∨ 10000 < v) := by omega
    simp [setsteps, hidle, hv, hn, redirect, emit, persistedWrites, Effect.isPersistedWrite]
  · have hn : v < 1 ∨ 10000 < v := by omega
    simp [setsteps, hidle, hv, hn, redirect, emit, persistedWrites, Effect.isPersistedWrite]

/-- Witness for C9: the value 7 after booting on an empty store. -/
theorem setsteps_in_range_updates_memory_only_witness :
    (boot emptyPreferences).isMovingSteps = false ∧
    setsteps (some 7) (boot emptyPreferences) =
      { boot emptyPreferences with
        fixedStepCount := 7
        log := (boot emptyPreferences).log ++ [Effect.redirect "/"] } :=
  ⟨by decide,
   (setsteps_in_range_updates_memory_only (boot emptyPreferences) 7 (by decide)).1 (by decide)⟩

theorem ofInt_toInt (m : MotorState) : MotorState.ofInt m.toInt = m := by
  cases m <;> rfl

/-- Each atomic step keeps the three persisted globals equal to what the store
would reload. -/
theorem apply_keeps_store_in_step (e : Event) (s : Sys)
    (h : s.period = loadPeriod s ∧ s.ledState = loadLedState s ∧
      s.motorState = loadMotorState s) :
    (e.apply s).period = loadPeriod (e.apply s) ∧
    (e.apply s).ledState = loadLedState (e.apply s) ∧
    (e.apply s).motorState = loadMotorState (e.apply s) := by
  obtain ⟨h1, h2, h3⟩ := h
  obtain ⟨period, motorState, busy, stm, sd, fsc, led, o1, o2, o3, o4, prefs, log⟩ := s
  simp only [loadPeriod, loadLedState, loadMotorState] at h1 h2 h3 ⊢
  cases e with
  | setsteps v =>
    cases busy <;> cases v <;> simp only [Event.apply, setsteps, redirect, emit] <;>
      first | exact ⟨h1, h2, h3⟩ | (split_ifs <;> exact ⟨h1, h2, h3⟩)
  | setperiod v =>
    cases busy <;> cases v <;> simp only [Event.apply, setperiod, redirect, emit, savePeriod] <;>
      first | exact ⟨h1, h2, h3⟩ | (split_ifs <;> first | exact ⟨h1, h2, h3⟩ | exact ⟨rfl, h2, h3⟩)
  | toggleled =>
    cases busy <;>
      simp only [Event.apply, toggleled, redirect, emit, digitalWrite, saveLedState] <;>
      first | exact ⟨h1, h2, h3⟩ | exact ⟨h1, rfl, h3⟩
  | moveup =>
    cases busy <;> cases motorState <;>
      simp only [Event.apply, moveup, redirect, emit, saveMotorState, delay] <;>
      first | exact ⟨h1, h2, h3⟩ | exact ⟨h1, h2, rfl⟩
  | movedown =>
    cases busy <;> cases motorState <;>
      simp only [Event.apply, movedown, redirect, emit, saveMotorState, delay] <;>
      first | exact ⟨h1, h2, h3⟩ | exact ⟨h1, h2, rfl⟩
  | stop =>
    cases busy <;>
      simp only [Event.apply, stop, redirect, emit, saveMotorState] <;>
      first | exact ⟨h1, h2, h3⟩ | exact ⟨h1, h2, rfl⟩
  | moveupsteps =>
    cases busy <;>
      simp only [Event.apply, moveupstepsEnter, startFixedMove, redirect, emit] <;>
      exact ⟨h1, h2, h3⟩
  | movedownsteps =>
    cases busy <;>
      simp only [Event.apply, movedownstepsEnter, startFixedMove, redirect, emit] <;>
      exact ⟨h1, h2, h3⟩
  | loop =>
    cases busy
    · cases motorState <;>
        simp only [Event.apply, loop, digitalWrite, delayMicroseconds, emit] <;>
        exact ⟨h1, h2, h3⟩
    · simp only [Event.apply]
      rw [loop_busy_eq _ rfl]
      exact ⟨h1, h2, rfl⟩

theorem boot_store_in_step (p : Preferences) :
    (boot p).period = loadPeriod (boot p) ∧ (boot p).ledState = loadLedState (boot p) ∧
      (boot p).motorState = loadMotorState (boot p) := by
  simp [boot, setup, powerOn, pinMode, digitalWrite, emit, loadPeriod, loadLedState,
    loadMotorState, ledPin, PIN_U1_EN, PIN_U1_STEP, PIN_U1_DIR]

theorem run_keeps_store_in_step (es : List Event) (s : Sys)
    (h : s.period = loadPeriod s ∧ s.ledState = loadLedState s ∧
      s.motorState = loadMotorState s) :
    (run es s).period = loadPeriod (run es s) ∧
    (run es s).ledState = loadLedState (run es s) ∧
    (run es s).motorState = loadMotorState (run es s) := by
  induction es generalizing s with
  | nil => exact h
  | cons e es ih => exact ih (e.apply s) (apply_keeps_store_in_step e s h)

/-- C6: for every store found at boot and every sequence of requests and
`loop` passes run from that boot, a restart yields `period`, `ledState` and
`motorState` equal to their values just before the restart, `fixedStepCount`
equal to 100 and the busy flag clear.  In particular, after `/setperiod` with
500, `/toggleled` and `/moveup` on a fresh device, a restart shows period 500,
LED on, motor UP and step count 100. -/
theorem restart_reloads_persisted_state (p : Preferences) (es : List Event) :
    ((restart (run es (boot p))).period = (run es (boot p)).period ∧
      (restart (run es (boot p))).ledState = (run es (boot p)).ledState ∧
      (restart (run es (boot p))).motorState = (run es (boot p)).motorState ∧
      (restart (run es (boot p))).fixedStepCount = 100 ∧
      (restart (run es (boot p))).isMovingSteps = false) ∧
    ((boot emptyPreferences).ledState = false ∧
      (restart (moveup (toggleled (setperiod (some 500) (boot emptyPreferences))))).period
        = 500 ∧
      (restart (moveup (toggleled (setperiod (some 500) (boot emptyPreferences))))).ledState
        = true ∧
      (restart (moveup (toggleled (setperiod (some 500) (boot emptyPreferences))))).motorState
        = .MOTOR_UP ∧
      (restart
        (moveup (toggleled (setperiod (some 500) (boot emptyPreferences))))).fixedStepCount
        = 100) := by
  obtain ⟨h1, h2, h3⟩ := run_keeps_store_in_step es (boot p) (boot_store_in_step p)
  obtain ⟨r1, r2, r3, r4, r5, _⟩ := restart_globals (run es (boot p))
  refine ⟨⟨?_, ?_, ?_, r4, r5⟩, ?_⟩
  · rw [r1, ← h1]
  · rw [r2, ← h2]
  · rw [r3, ← h3]
  · decide

/-! ## The enable line -/

/-- C7, as stated, fails: after booting on an empty store and accepting
`/moveup`, `motorState` is UP while the enable line is still HIGH (not
asserted), because no handler writes the pin. -/
theorem enable_iff_fails_after_moveup :
    (run [Event.moveup] (boot emptyPreferences)).motorState = .MOTOR_UP ∧
    (run [Event.moveup] (boot emptyPreferences)).outEn = .HIGH ∧
    ¬ ((run [Event.moveup] (boot emptyPreferences)).outEn = .LOW ↔
        ((run [Event.moveup] (boot emptyPreferences)).motorState ≠ .MOTOR_STOP ∨
          (run [Event.moveup] (boot emptyPreferences)).isMovingSteps = true)) := by
  decide

/-- C7, amended: right after every pass of `loop`, from any state, the enable
line is LOW if and only if `motorState` is not STOP or the busy flag is set. -/
theorem enable_iff_holds_after_each_loop_pass (s : Sys) :
    (loop s).outEn = .LOW ↔
      ((loop s).motorState ≠ .MOTOR_STOP ∨ (loop s).isMovingSteps = true) := by
  cases hb : s.isMovingSteps
  · cases hm : s.motorState <;>
      simp [loop, hb, hm, digitalWrite, delayMicroseconds, emit, ledPin, PIN_U1_EN,
        PIN_U1_STEP, PIN_U1_DIR]
  · rw [loop_busy_eq s hb]
    simp

/-! ## End state of a fixed-step move -/

theorem persistedWrites_pulsesTrace (n : Nat) (us : Int) :
    persistedWrites (pulsesTrace n us) = [] := by
  induction n with
  | zero => rfl
  | succ n ih =>
    simp only [persistedWrites] at ih
    simp [pulsesTrace, pulseTrace, persistedWrites, Effect.isPersistedWrite, ih]

/-- C8: from a non-busy state with any `motorState`, once `/moveupsteps` or
`/movedownsteps` has been accepted and the `loop` pass has executed the move,
`motorState` is STOP, the store holds STOP (and reloads as STOP), the pass has
made exactly one persisted write, that of STOP, the busy flag is clear, and
`period`, `fixedStepCount` and `ledState` are what they were. -/
theorem fixed_move_ends_stopped (s : Sys) (hidle : s.isMovingSteps = false) :
    ∀ t ∈ [loop (moveupstepsEnter s), loop (movedownstepsEnter s)],
      t.motorState = .MOTOR_STOP ∧
      t.preferences.motor_state = some MotorState.MOTOR_STOP.toInt ∧
      loadMotorState t = .MOTOR_STOP ∧
      persistedWrites t.log = persistedWrites s.log ++ [.putInt "motor" "state" 0] ∧
      t.isMovingSteps = false ∧
      t.period = s.period ∧
      t.fixedStepCount = s.fixedStepCount ∧
      t.ledState = s.ledState := by
  intro t ht
  simp only [List.mem_cons, List.mem_singleton, List.not_mem_nil, or_false] at ht
  rcases ht with rfl | rfl
  · rw [loop_busy_eq _ (by simp [moveupstepsEnter, hidle, startFixedMove])]
    have hp := persistedWrites_pulsesTrace
    simp only [persistedWrites] at hp
    simp [moveupstepsEnter, hidle, startFixedMove, loadMotorState, MotorState.toInt,
      MotorState.ofInt, persistedWrites, Effect.isPersistedWrite, hp]
  · rw [loop_busy_eq _ (by simp [movedownstepsEnter, hidle, startFixedMove])]
    have hp := persistedWrites_pulsesTrace
    simp only [persistedWrites] at hp
    simp [movedownstepsEnter, hidle, startFixedMove, loadMotorState, MotorState.toInt,
      MotorState.ofInt, persistedWrites, Effect.isPersistedWrite, hp]

/-- Witness for C8: a fixed-step move UP requested while the motor runs DOWN,
after booting on an empty store. -/
theorem fixed_move_ends_stopped_witness :
    (movedown (boot emptyPreferences)).motorState = .MOTOR_DOWN ∧
    (loop (moveupstepsEnter (movedown (boot emptyPreferences)))).motorState = .MOTOR_STOP :=
  ⟨by decide,
   (fixed_move_ends_stopped (movedown (boot emptyPreferences)) (by decide)
      (loop (moveupstepsEnter (movedown (boot emptyPreferences)))) (by simp)).1⟩

/-! ## One pass of `loop` outside a fixed-step move -/

/-- C10: in a non-busy state one pass of `loop` logs, for STOP, the single
write EN HIGH; for UP (resp. DOWN), with a period `p` that is a non-negative
`int`, DIR HIGH (resp. LOW), EN LOW, STEP HIGH, wait `p` microseconds, STEP
LOW, wait `p` microseconds, and nothing else, so the delays of the pass add up
to `2 * p` microseconds. -/
theorem tick_trace_by_motor_state (s : Sys) (hidle : s.isMovingSteps = false) :
    (s.motorState = .MOTOR_STOP →
      (loop s).log = s.log ++ [.digitalWrite PIN_U1_EN .HIGH] ∧
      blockedMicros ((loop s).log.drop s.log.length) = 0) ∧
    (s.motorState = .MOTOR_UP → 0 ≤ s.period → s.period < 2147483648 →
      (loop s).log = s.log ++
        [.digitalWrite PIN_U1_DIR .HIGH, .digitalWrite PIN_U1_EN .LOW,
         .digitalWrite PIN_U1_STEP .HIGH, .delayMicroseconds s.period,
         .digitalWrite PIN_U1_STEP .LOW, .delayMicroseconds s.period] ∧
      blockedMicros ((loop s).log.drop s.log.length) = 2 * s.period) ∧
    (s.motorState = .MOTOR_DOWN → 0 ≤ s.period → s.period < 2147483648 →
      (loop s).log = s.log ++
        [.digitalWrite PIN_U1_DIR .LOW, .digitalWrite PIN_U1_EN .LOW,
         .digitalWrite PIN_U1_STEP .HIGH, .delayMicroseconds s.period,
         .digitalWrite PIN_U1_STEP .LOW, .delayMicroseconds s.period] ∧
      blockedMicros ((loop s).log.drop s.log.length) = 2 * s.period) := by
  refine ⟨?_, ?_, ?_⟩
  · intro hm
    simp [loop, hidle, hm, digitalWrite, emit, ledPin, PIN_U1_EN, PIN_U1_STEP, PIN_U1_DIR,
      blockedMicros]
  · intro hm h0 h1
    have hmod := emod_of_int_range h0 h1
    simp [loop, hidle, hm, digitalWrite, delayMicroseconds, emit, ledPin, PIN_U1_EN,
      PIN_U1_STEP, PIN_U1_DIR, blockedMicros, hmod]
    ring
  · intro hm h0 h1
    have hmod := emod_of_int_range h0 h1
    simp [loop, hidle, hm, digitalWrite, delayMicroseconds, emit, ledPin, PIN_U1_EN,
      PIN_U1_STEP, PIN_U1_DIR, blockedMicros, hmod]
    ring

/-- Witness for C10: the three motor states after booting on an empty store
(period 150). -/
theorem tick_trace_by_motor_state_witness :
    (loop (boot emptyPreferences)).log =
      (boot emptyPreferences).log ++ [.digitalWrite PIN_U1_EN .HIGH] ∧
    blockedMicros
        ((loop (moveup (boot emptyPreferences))).log.drop
          (moveup (boot emptyPreferences)).log.length) = 2 * 150 ∧
    blockedMicros
        ((loop (movedown (boot emptyPreferences))).log.drop
          (movedown (boot emptyPreferences)).log.length) = 2 * 150 :=
  ⟨((tick_trace_by_motor_state (boot emptyPreferences) (by decide)).1 (by decide)).1,
   ((tick_trace_by_motor_state (moveup (boot emptyPreferences)) (by decide)).2.1
      (by decide) (by decide) (by decide)).2,
   ((tick_trace_by_motor_state (movedown (boot emptyPreferences)) (by decide)).2.2
      (by decide) (by decide) (by decide)).2⟩

/-! ## The LED -/

/-- C13: in a non-busy state `/toggleled` negates `ledState`, writes the LED
pin HIGH exactly when the new `ledState` is true, persists the new `ledState`
with one write and redirects; `period`, `fixedStepCount`, `motorState`, the
busy flag, the three motor pins and the persisted period and motor state are
what they were. -/
theorem toggleled_flips_drives_and_persists (s : Sys) (hidle : s.isMovingSteps = false) :
    toggleled s =
      { s with
        ledState := !s.ledState
        outLed := if (!s.ledState) = true then .HIGH else .LOW
        preferences := { s.preferences with led_state := some (!s.ledState) }
        log := s.log ++
          [.digitalWrite ledPin (if (!s.ledState) = true then .HIGH else .LOW),
           .putBool "led" "state" (!s.ledState), .redirect "/"] } ∧
    ((toggleled s).outLed = .HIGH ↔ (toggleled s).ledState = true) ∧
    (toggleled s).preferences.period_value = s.preferences.period_value ∧
    (toggleled s).preferences.motor_state = s.preferences.motor_state := by
  cases hl : s.ledState <;>
    simp [toggleled, hidle, hl, digitalWrite, saveLedState, redirect, emit, ledPin]

/-- Witness for C13: the LED toggled on after booting on an empty store. -/
theorem toggleled_flips_drives_and_persists_witness :
    (boot emptyPreferences).isMovingSteps = false ∧
    (toggleled (boot emptyPreferences)).ledState = true ∧
    (toggleled (boot emptyPreferences)).outLed = .HIGH ∧
    (toggleled (boot emptyPreferences)).preferences.led_state = some true :=
  ⟨by decide,
   by rw [(toggleled_flips_drives_and_persists (boot emptyPreferences) (by decide)).1]; decide,
   by rw [(toggleled_flips_drives_and_persists (boot emptyPreferences) (by decide)).1]; decide,
   by rw [(toggleled_flips_drives_and_persists (boot emptyPreferences) (by decide)).1]; decide⟩

/-! ## Stop, and start from rest -/

/-- C14: in a non-busy state `/stop` sets `motorState` to STOP whatever it was
and logs exactly the persisted write of STOP and its redirect; with
`motorState` STOP, `/moveup` (resp. `/movedown`) sets `motorState` to UP (resp.
DOWN) and logs exactly the persisted write of that direction and its redirect,
with no delay; nothing else changes. -/
theorem stop_and_start_from_rest_persist_once (s : Sys) (hidle : s.isMovingSteps = false) :
    stop s =
      { s with
        motorState := .MOTOR_STOP
        preferences := { s.preferences with motor_state := some 0 }
        log := s.log ++ [.putInt "motor" "state" 0, .redirect "/"] } ∧
    (s.motorState = .MOTOR_STOP →
      moveup s =
        { s with
          motorState := .MOTOR_UP
          preferences := { s.preferences with motor_state := some 1 }
          log := s.log ++ [.putInt "motor" "state" 1, .redirect "/"] } ∧
      movedown s =
        { s with
          motorState := .MOTOR_DOWN
          preferences := { s.preferences with motor_state := some 2 }
          log := s.log ++ [.putInt "motor" "state" 2, .redirect "/"] }) := by
  constructor
  · simp [stop, hidle, saveMotorState, redirect, emit, MotorState.toInt]
  · intro hm
    simp [moveup, movedown, hidle, hm, saveMotorState, redirect, emit, MotorState.toInt]

/-- Witness for C14: `/stop` while running UP, and `/moveup` from rest, after
booting on an empty store. -/
theorem stop_and_start_from_rest_persist_once_witness :
    (moveup (boot emptyPreferences)).motorState = .MOTOR_UP ∧
    (stop (moveup (boot emptyPreferences))).log =
      (moveup (boot emptyPreferences)).log ++ [.putInt "motor" "state" 0, .redirect "/"] ∧
    (boot emptyPreferences).motorState = .MOTOR_STOP ∧
    (moveup (boot emptyPreferences)).log =
      (boot emptyPreferences).log ++ [.putInt "motor" "state" 1, .redirect "/"] :=
  ⟨by decide,
   by rw [(stop_and_start_from_rest_persist_once (moveup (boot emptyPreferences))
      (by decide)).1],
   by decide,
   by rw [((stop_and_start_from_rest_persist_once (boot emptyPreferences) (by decide)).2
      (by decide)).1]⟩

/-! ## Frame of a `loop` pass outside a fixed-step move -/

/-- C17: in a non-busy state one pass of `loop` leaves `period`,
`fixedStepCount`, `ledState`, `motorState`, the busy flag, `stepsToMove`,
`stepDirection`, the LED pin and the persisted store as they were, performs no
persisted write, and logs nothing but writes to the EN, DIR and STEP pins and
the pulse delays, whatever `motorState` is. -/
theorem idle_tick_changes_no_program_state (s : Sys) (hidle : s.isMovingSteps = false) :
    (loop s).period = s.period ∧
    (loop s).fixedStepCount = s.fixedStepCount ∧
    (loop s).ledState = s.ledState ∧
    (loop s).motorState = s.motorState ∧
    (loop s).isMovingSteps = s.isMovingSteps ∧
    (loop s).stepsToMove = s.stepsToMove ∧
    (loop s).stepDirection = s.stepDirection ∧
    (loop s).outLed = s.outLed ∧
    (loop s).preferences = s.preferences ∧
    persistedWrites (loop s).log = persistedWrites s.log ∧
    ∀ e ∈ (loop s).log.drop s.log.length,
      (∃ lvl, e = .digitalWrite PIN_U1_EN lvl ∨ e = .digitalWrite PIN_U1_DIR lvl ∨
        e = .digitalWrite PIN_U1_STEP lvl) ∨ ∃ us, e = .delayMicroseconds us := by
  cases hm : s.motorState <;>
    simp [loop, hidle, hm, digitalWrite, delayMicroseconds, emit, ledPin, PIN_U1_EN,
      PIN_U1_STEP, PIN_U1_DIR, persistedWrites, Effect.isPersistedWrite]

/-- Witness for C17: a pass while running UP after booting on an empty store. -/
theorem idle_tick_changes_no_program_state_witness :
    (moveup (boot emptyPreferences)).isMovingSteps = false ∧
    (loop (moveup (boot emptyPreferences))).motorState = .MOTOR_UP ∧
    (loop (moveup (boot emptyPreferences))).preferences =
      (moveup (boot emptyPreferences)).preferences :=
  ⟨by decide,
   by rw [(idle_tick_changes_no_program_state (moveup (boot emptyPreferences))
      (by decide)).2.2.2.1]; decide,
   (idle_tick_changes_no_program_state (moveup (boot emptyPreferences))
      (by decide)).2.2.2.2.2.2.2.2.1⟩

/-! ## Bounds on the motion parameters -/

/-- Each atomic step keeps `period` (in memory and in the store) within
`[10, 10000]`, `fixedStepCount` within `[1, 10000]` and, while the busy flag is
set, `stepsToMove` within `[1, 10000]`. -/
theorem apply_keeps_bounds (e : Event) (s : Sys)
    (h : (10 ≤ s.period ∧ s.period ≤ 10000) ∧
      (1 ≤ s.fixedStepCount ∧ s.fixedStepCount ≤ 10000) ∧
      (s.isMovingSteps = true → 1 ≤ s.stepsToMove ∧ s.stepsToMove ≤ 10000) ∧
      (∀ v, s.preferences.period_value = some v → 10 ≤ v ∧ v ≤ 10000)) :
    (10 ≤ (e.apply s).period ∧ (e.apply s).period ≤ 10000) ∧
    (1 ≤ (e.apply s).fixedStepCount ∧ (e.apply s).fixedStepCount ≤ 10000) ∧
    ((e.apply s).isMovingSteps = true →
      1 ≤ (e.apply s).stepsToMove ∧ (e.apply s).stepsToMove ≤ 10000) ∧
    (∀ v, (e.apply s).preferences.period_value = some v → 10 ≤ v ∧ v ≤ 10000) := by
  obtain ⟨h1, h2, h3, h4⟩ := h
  obtain ⟨period, motorState, busy, stm, sd, fsc, led, o1, o2, o3, o4, prefs, log⟩ := s
  simp only at h1 h2 h3 h4
  cases e with
  | setsteps v =>
    cases busy <;> cases v <;> simp [Event.apply, setsteps, redirect, emit] <;>
      (try split_ifs) <;> simp_all
  | setperiod v =>
    cases busy <;> cases v <;> simp [Event.apply, setperiod, redirect, emit, savePeriod] <;>
      (try split_ifs) <;> simp_all
  | toggleled =>
    cases busy <;>
      simp [Event.apply, toggleled, redirect, emit, digitalWrite, saveLedState, ledPin] <;>
      simp_all
  | moveup =>
    cases busy <;> cases motorState <;>
      simp [Event.apply, moveup, redirect, emit, saveMotorState, delay] <;> simp_all
  | movedown =>
    cases busy <;> cases motorState <;>
      simp [Event.apply, movedown, redirect, emit, saveMotorState, delay] <;> simp_all
  | stop =>
    cases busy <;>
      simp [Event.apply, stop, redirect, emit, saveMotorState] <;> simp_all
  | moveupsteps =>
    cases busy <;>
      simp [Event.apply, moveupstepsEnter, startFixedMove, redirect, emit] <;> simp_all
  | movedownsteps =>
    cases busy <;>
      simp [Event.apply, movedownstepsEnter, startFixedMove, redirect, emit] <;> simp_all
  | loop =>
    cases busy
    · cases motorState <;>
        simp [Event.apply, loop, digitalWrite, delayMicroseconds, emit, ledPin, PIN_U1_EN,
          PIN_U1_STEP, PIN_U1_DIR] <;> simp_all
    · simp only [Event.apply]
      rw [loop_busy_eq _ rfl]
      simp_all

/-- C12: from a boot on a store whose period key is absent or holds a value in
`[10, 10000]` (an empty store, or one written only by this program), every
state reached by requests and `loop` passes has `10 ≤ period ≤ 10000` and
`1 ≤ fixedStepCount ≤ 10000`, has `1 ≤ stepsToMove ≤ 10000` whenever the busy
flag is set, and its store again holds no period or one in `[10, 10000]`. -/
theorem reachable_parameters_within_bounds (p : Preferences)
    (hp : ∀ v, p.period_value = some v → 10 ≤ v ∧ v ≤ 10000) (es : List Event) :
    (10 ≤ (run es (boot p)).period ∧ (run es (boot p)).period ≤ 10000) ∧
    (1 ≤ (run es (boot p)).fixedStepCount ∧ (run es (boot p)).fixedStepCount ≤ 10000) ∧
    ((run es (boot p)).isMovingSteps = true →
      1 ≤ (run es (boot p)).stepsToMove ∧ (run es (boot p)).stepsToMove ≤ 10000) ∧
    (∀ v, (run es (boot p)).preferences.period_value = some v → 10 ≤ v ∧ v ≤ 10000) := by
  have hboot : (10 ≤ (boot p).period ∧ (boot p).period ≤ 10000) ∧
      (1 ≤ (boot p).fixedStepCount ∧ (boot p).fixedStepCount ≤ 10000) ∧
      ((boot p).isMovingSteps = true →
        1 ≤ (boot p).stepsToMove ∧ (boot p).stepsToMove ≤ 10000) ∧
      (∀ v, (boot p).preferences.period_value = some v → 10 ≤ v ∧ v ≤ 10000) := by
    have hb : (boot p).period = p.period_value.getD 150 ∧ (boot p).fixedStepCount = 100 ∧
        (boot p).isMovingSteps = false ∧ (boot p).preferences = p := by
      simp [boot, setup, powerOn, pinMode, digitalWrite, emit, loadPeriod, ledPin,
        PIN_U1_EN, PIN_U1_STEP, PIN_U1_DIR]
    obtain ⟨b1, b2, b3, b4⟩ := hb
    rw [b1, b2, b3, b4]
    refine ⟨?_, by decide, fun hf => (by cases hf), hp⟩
    cases hv : p.period_value with
    | none => decide
    | some v => exact hp v hv
  generalize boot p = s at hboot
  induction es generalizing s with
  | nil => exact hboot
  | cons e es ih => exact ih (e.apply s) (apply_keeps_bounds e s hboot)

/-- Witness for C12: an execution on an empty store that changes both
parameters and starts a fixed-step move. -/
theorem reachable_parameters_within_bounds_witness :
    (run [.setperiod (some 10), .setsteps (some 10000), .moveupsteps]
        (boot emptyPreferences)).isMovingSteps = true ∧
    1 ≤ (run [.setperiod (some 10), .setsteps (some 10000), .moveupsteps]
        (boot emptyPreferences)).stepsToMove ∧
    (run [.setperiod (some 10), .setsteps (some 10000), .moveupsteps]
        (boot emptyPreferences)).stepsToMove ≤ 10000 :=
  ⟨by decide,
   ((reachable_parameters_within_bounds emptyPreferences (fun _ hv => (by cases hv))
      [.setperiod (some 10), .setsteps (some 10000), .moveupsteps]).2.2.1 (by decide)).1,
   ((reachable_parameters_within_bounds emptyPreferences (fun _ hv => (by cases hv))
      [.setperiod (some 10), .setsteps (some 10000), .moveupsteps]).2.2.1 (by decide)).2⟩

/-! ## Responses -/

theorem responses_pulsesTrace (n : Nat) (us : Int) : responses (pulsesTrace n us) = [] := by
  induction n with
  | zero => rfl
  | succ n ih =>
    simp only [responses] at ih
    simp [pulsesTrace, pulseTrace, responses, ih]

theorem waitWhileMoving_idle (fuel : Nat) (s : Sys) (h : s.isMovingSteps = false) :
    waitWhileMoving fuel s = some s := by
  cases fuel <;> simp [waitWhileMoving, h]

/-- An accepted fixed-step request run to completion: the handler starts the
move, sleeps once while the main task executes it, then redirects. -/
theorem fixed_move_handler_completes (dir : Int) (fuel : Nat) (s : Sys) :
    (waitWhileMoving (fuel + 1) (startFixedMove dir s)).map (redirect "/") =
      some (redirect "/" (loop (delay 10 (startFixedMove dir s)))) := by
  have hb : (delay 10 (startFixedMove dir s)).isMovingSteps = true := by
    simp [delay, emit, startFixedMove]
  have hl : (loop (delay 10 (startFixedMove dir s))).isMovingSteps = false := by
    rw [loop_busy_eq _ hb]
  have hs : (startFixedMove dir s).isMovingSteps = true := by simp [startFixedMove]
  rw [waitWhileMoving, if_pos hs, waitWhileMoving_idle _ _ hl]
  rfl

/-- C15: in every state, busy or not, and for every parameter, present or
missing, each of `/setperiod`, `/setsteps`, `/toggleled`, `/moveup`,
`/movedown` and `/stop` sends exactly one response, a redirect to "/", as its
last action; `/moveupsteps` and `/movedownsteps`, run to completion with the
main task executing the move while the handler sleeps, return and do the
same. -/
theorem every_post_handler_redirects_home (s : Sys) (v w : Option Int) (fuel : Nat) :
    (∀ h ∈ [setperiod v, setsteps w, toggleled, moveup, movedown, stop],
      responses (h s).log = responses s.log ++ ["/"] ∧
      (h s).log.getLast? = some (Effect.redirect "/")) ∧
    (∀ h ∈ [moveupsteps (fuel + 1), movedownsteps (fuel + 1)],
      ∃ t, h s = some t ∧ responses t.log = responses s.log ++ ["/"] ∧
        t.log.getLast? = some (Effect.redirect "/")) := by
  constructor
  · intro h hh
    simp only [List.mem_cons, List.mem_singleton, List.not_mem_nil, or_false] at hh
    rcases hh with rfl | rfl | rfl | rfl | rfl | rfl
    · cases hb : s.isMovingSteps <;> cases v <;>
        simp [setperiod, hb, savePeriod, redirect, emit, responses]
      split_ifs <;> simp
    · cases hb : s.isMovingSteps <;> cases w <;>
        simp [setsteps, hb, redirect, emit, responses]
      split_ifs <;> simp
    · cases hb : s.isMovingSteps <;>
        simp [toggleled, hb, digitalWrite, saveLedState, redirect, emit, responses, ledPin]
    · cases hb : s.isMovingSteps <;> cases hm : s.motorState <;>
        simp [moveup, hb, hm, saveMotorState, delay, redirect, emit, responses]
    · cases hb : s.isMovingSteps <;> cases hm : s.motorState <;>
        simp [movedown, hb, hm, saveMotorState, delay, redirect, emit, responses]
    · cases hb : s.isMovingSteps <;>
        simp [stop, hb, saveMotorState, redirect, emit, responses]
  · intro h hh
    simp only [List.mem_cons, List.mem_singleton, List.not_mem_nil, or_false] at hh
    have hp := responses_pulsesTrace
    simp only [responses] at hp
    rcases hh with rfl | rfl
    · cases hb : s.isMovingSteps
      · refine ⟨redirect "/" (loop (delay 10 (startFixedMove 1 s))), ?_, ?_, ?_⟩
        · simp only [moveupsteps, hb]
          exact fixed_move_handler_completes 1 fuel s
        · rw [loop_busy_eq _ (by simp [delay, emit, startFixedMove])]
          simp [redirect, emit, delay, startFixedMove, responses, hp]
        · simp [redirect, emit]
      · exact ⟨redirect "/" s, by simp [moveupsteps, hb], by simp [redirect, emit, responses],
          by simp [redirect, emit]⟩
    · cases hb : s.isMovingSteps
      · refine ⟨redirect "/" (loop (delay 10 (startFixedMove (-1) s))), ?_, ?_, ?_⟩
        · simp only [movedownsteps, hb]
          exact fixed_move_handler_completes (-1) fuel s
        · rw [loop_busy_eq _ (by simp [delay, emit, startFixedMove])]
          simp [redirect, emit, delay, startFixedMove, responses, hp]
        · simp [redirect, emit]
      · exact ⟨redirect "/" s, by simp [movedownsteps, hb],
          by simp [redirect, emit, responses], by simp [redirect, emit]⟩

/-! ## Transitions of the motor state -/

theorem motorWrites_pulsesTrace (n : Nat) (us : Int) : motorWrites (pulsesTrace n us) = [] := by
  induction n with
  | zero => rfl
  | succ n ih =>
    simp only [motorWrites] at ih
    simp [pulsesTrace, pulseTrace, motorWrites, ih]

theorem motorWrites_append (a b : List Effect) :
    motorWrites (a ++ b) = motorWrites a ++ motorWrites b := by
  simp [motorWrites]

/-- What one atomic step does to the motor state and to the persisted motor
writes: nothing; or STOP is written and becomes the state; or, from STOP, the
new state is written; or STOP and then the new state are written. -/
theorem apply_motor_effect (e : Event) (s : Sys) :
    (motorWrites (e.apply s).log = motorWrites s.log ∧
      (e.apply s).motorState = s.motorState) ∨
    (motorWrites (e.apply s).log = motorWrites s.log ++ [.MOTOR_STOP] ∧
      (e.apply s).motorState = .MOTOR_STOP) ∨
    (s.motorState = .MOTOR_STOP ∧
      motorWrites (e.apply s).log = motorWrites s.log ++ [(e.apply s).motorState]) ∨
    motorWrites (e.apply s).log =
      motorWrites s.log ++ [.MOTOR_STOP, (e.apply s).motorState] := by
  cases e with
  | setsteps v =>
    left
    cases hb : s.isMovingSteps <;> cases v <;>
      simp [Event.apply, setsteps, hb, redirect, emit, motorWrites]
    split_ifs <;> simp
  | setperiod v =>
    left
    cases hb : s.isMovingSteps <;> cases v <;>
      simp [Event.apply, setperiod, hb, savePeriod, redirect, emit, motorWrites]
    split_ifs <;> simp
  | toggleled =>
    left
    cases hb : s.isMovingSteps <;>
      simp [Event.apply, toggleled, hb, digitalWrite, saveLedState, redirect, emit,
        motorWrites, ledPin]
  | moveup =>
    cases hb : s.isMovingSteps <;> cases hm : s.motorState <;>
      simp [Event.apply, moveup, hb, hm, saveMotorState, delay, redirect, emit, motorWrites,
        MotorState.toInt, MotorState.ofInt]
  | movedown =>
    cases hb : s.isMovingSteps <;> cases hm : s.motorState <;>
      simp [Event.apply, movedown, hb, hm, saveMotorState, delay, redirect, emit, motorWrites,
        MotorState.toInt, MotorState.ofInt]
  | stop =>
    cases hb : s.isMovingSteps <;>
      simp [Event.apply, stop, hb, saveMotorState, redirect, emit, motorWrites,
        MotorState.toInt, MotorState.ofInt]
  | moveupsteps =>
    left
    cases hb : s.isMovingSteps <;>
      simp [Event.apply, moveupstepsEnter, startFixedMove, hb, redirect, emit, motorWrites]
  | movedownsteps =>
    left
    cases hb : s.isMovingSteps <;>
      simp [Event.apply, movedownstepsEnter, startFixedMove, hb, redirect, emit, motorWrites]
  | loop =>
    cases hb : s.isMovingSteps
    · left
      cases hm : s.motorState <;>
        simp [Event.apply, loop, hb, hm, digitalWrite, delayMicroseconds, emit, motorWrites,
          ledPin, PIN_U1_EN, PIN_U1_STEP, PIN_U1_DIR]
    · right; left
      have h0 : MotorState.ofInt 0 = .MOTOR_STOP := by decide
      simp only [Event.apply]
      rw [loop_busy_eq s hb]
      simp only [motorWrites_append, motorWrites_pulsesTrace]
      simp [motorWrites, h0]

/-- Appending to a chain that ends in `m` a list that chains on from `m`. -/
theorem chain_extend {R : MotorState → MotorState → Prop} (h w : List MotorState)
    (m : MotorState) (hc : List.Chain' R h) (hl : h.getLast? = some m)
    (hw : List.Chain' R (m :: w)) :
    List.Chain' R (h ++ w) ∧ (h ++ w).getLast? = (m :: w).getLast? := by
  obtain ⟨ys, rfl⟩ := List.getLast?_eq_some_iff.mp hl
  constructor
  · rw [List.append_assoc, List.singleton_append]
    exact List.chain'_split.mpr ⟨hc, hw⟩
  · rw [List.append_assoc, List.singleton_append]
    exact List.getLast?_append_of_ne_nil ys (List.cons_ne_nil m w)

/-- One atomic step extends the history of motor states by allowed
transitions only and leaves `motorState` equal to the history's last entry. -/
theorem apply_keeps_motor_chain (m0 : MotorState) (e : Event) (s : Sys)
    (h : List.Chain' (fun a b => motorStepAllowed a b = true) (m0 :: motorWrites s.log) ∧
      (m0 :: motorWrites s.log).getLast? = some s.motorState) :
    List.Chain' (fun a b => motorStepAllowed a b = true)
        (m0 :: motorWrites (e.apply s).log) ∧
      (m0 :: motorWrites (e.apply s).log).getLast? = some (e.apply s).motorState := by
  obtain ⟨hc, hl⟩ := h
  rcases apply_motor_effect e s with ⟨hw, hm⟩ | ⟨hw, hm⟩ | ⟨hs, hw⟩ | hw
  · rw [hw, hm]; exact ⟨hc, hl⟩
  · rw [hw, hm, ← List.cons_append]
    have := chain_extend _ [MotorState.MOTOR_STOP] _ hc hl
      (by cases s.motorState <;> simp [motorStepAllowed])
    simpa using this
  · rw [hw, ← List.cons_append]
    have := chain_extend _ [(e.apply s).motorState] _ hc hl
      (by rw [hs]; simp [motorStepAllowed])
    simpa using this
  · rw [hw, ← List.cons_append]
    have := chain_extend _ [MotorState.MOTOR_STOP, (e.apply s).motorState] _ hc hl
      (by cases s.motorState <;> simp [motorStepAllowed])
    simpa using this

theorem run_keeps_motor_chain (m0 : MotorState) (es : List Event) (s : Sys)
    (h : List.Chain' (fun a b => motorStepAllowed a b = true) (m0 :: motorWrites s.log) ∧
      (m0 :: motorWrites s.log).getLast? = some s.motorState) :
    List.Chain' (fun a b => motorStepAllowed a b = true)
        (m0 :: motorWrites (run es s).log) ∧
      (m0 :: motorWrites (run es s).log).getLast? = some (run es s).motorState := by
  induction es generalizing s with
  | nil => exact h
  | cons e es ih => exact ih (e.apply s) (apply_keeps_motor_chain m0 e s h)

theorem boot_motor_writes (p : Preferences) : motorWrites (boot p).log = [] := by
  simp [boot, setup, powerOn, pinMode, digitalWrite, emit, motorWrites, ledPin, PIN_U1_EN,
    PIN_U1_STEP, PIN_U1_DIR]

/-- C11: in every execution from boot, the history of `motorState` (its value
after `setup`, followed by every value then assigned to it, each of which the
program persists at once with `saveMotorState(motorState)`) makes only the
transitions STOP to UP, STOP to DOWN, UP to STOP, DOWN to STOP and STOP to
STOP; so does the sequence of persisted motor writes alone; UP is never
immediately followed by DOWN nor DOWN by UP; and the last entry of the history
is the current `motorState`. -/
theorem motor_state_reverses_only_through_stop (p : Preferences) (es : List Event) :
    List.Chain' (fun a b => motorStepAllowed a b = true)
        ((boot p).motorState :: motorWrites (run es (boot p)).log) ∧
    List.Chain' (fun a b => motorStepAllowed a b = true)
        (motorWrites (run es (boot p)).log) ∧
    List.Chain'
        (fun a b =>
          ¬ (a = MotorState.MOTOR_UP ∧ b = MotorState.MOTOR_DOWN) ∧
          ¬ (a = MotorState.MOTOR_DOWN ∧ b = MotorState.MOTOR_UP))
        ((boot p).motorState :: motorWrites (run es (boot p)).log) ∧
    ((boot p).motorState :: motorWrites (run es (boot p)).log).getLast? =
      some (run es (boot p)).motorState := by
  have h := run_keeps_motor_chain (boot p).motorState es (boot p)
    (by rw [boot_motor_writes]; simp)
  refine ⟨h.1, h.1.tail, ?_, h.2⟩
  refine h.1.imp ?_
  intro a b hab
  cases a <;> cases b <;> simp_all [motorStepAllowed]

/-! ## Direction reversals and the settle delay -/

theorem PulseScan.run_append (a b : List Effect) :
    PulseScan.run (a ++ b) = b.foldl PulseScan.step (PulseScan.run a) := by
  simp [PulseScan.run]

/-- A step other than `/stop` and the fixed-step requests, taken outside a
fixed-step move, introduces no unsettled reversal: the scan stays ok, and the
last pulse, if any, either has the direction of `motorState` or has been
followed by a settle delay. -/
theorem apply_keeps_reversals_settled (e : Event) (s : Sys)
    (he : e.isStopOrFixedMove = false)
    (h : s.isMovingSteps = false ∧ (PulseScan.run s.log).ok = true ∧
      (s.motorState = .MOTOR_STOP → (PulseScan.run s.log).lastPulseDir = none) ∧
      (s.motorState = .MOTOR_UP →
        (PulseScan.run s.log).lastPulseDir = none ∨
        (PulseScan.run s.log).lastPulseDir = some .HIGH ∨
        (PulseScan.run s.log).settled = true) ∧
      (s.motorState = .MOTOR_DOWN →
        (PulseScan.run s.log).lastPulseDir = none ∨
        (PulseScan.run s.log).lastPulseDir = some .LOW ∨
        (PulseScan.run s.log).settled = true)) :
    (e.apply s).isMovingSteps = false ∧ (PulseScan.run (e.apply s).log).ok = true ∧
      ((e.apply s).motorState = .MOTOR_STOP →
        (PulseScan.run (e.apply s).log).lastPulseDir = none) ∧
      ((e.apply s).motorState = .MOTOR_UP →
        (PulseScan.run (e.apply s).log).lastPulseDir = none ∨
        (PulseScan.run (e.apply s).log).lastPulseDir = some .HIGH ∨
        (PulseScan.run (e.apply s).log).settled = true) ∧
      ((e.apply s).motorState = .MOTOR_DOWN →
        (PulseScan.run (e.apply s).log).lastPulseDir = none ∨
        (PulseScan.run (e.apply s).log).lastPulseDir = some .LOW ∨
        (PulseScan.run (e.apply s).log).settled = true) := by
  obtain ⟨hb, hok, h0, hu, hd⟩ := h
  obtain ⟨period, motorState, busy, stm, sd, fsc, led, o1, o2, o3, o4, prefs, log⟩ := s
  simp only at hb hok h0 hu hd
  subst hb
  generalize hX : PulseScan.run log = X at hok h0 hu hd
  obtain ⟨xd, xl, xs, xo⟩ := X
  simp only at hok h0 hu hd
  subst hok
  cases e with
  | setsteps v =>
    cases v <;>
      simp [Event.apply, setsteps, redirect, emit, PulseScan.run_append, PulseScan.step, hX]
    · exact ⟨h0, hu, hd⟩
    · split_ifs <;> simp [PulseScan.run_append, PulseScan.step, hX] <;> exact ⟨h0, hu, hd⟩
  | setperiod v =>
    cases v <;>
      simp [Event.apply, setperiod, savePeriod, redirect, emit, PulseScan.run_append,
        PulseScan.step, hX]
    · exact ⟨h0, hu, hd⟩
    · split_ifs <;> simp [PulseScan.run_append, PulseScan.step, hX] <;> exact ⟨h0, hu, hd⟩
  | toggleled =>
    simp [Event.apply, toggleled, digitalWrite, saveLedState, redirect, emit,
      PulseScan.run_append, PulseScan.step, hX, ledPin, PIN_U1_STEP, PIN_U1_DIR]
    exact ⟨h0, hu, hd⟩
  | moveup =>
    cases motorState <;>
      simp [Event.apply, moveup, saveMotorState, delay, redirect, emit,
        PulseScan.run_append, PulseScan.step, hX] at h0 hu hd ⊢
    · exact Or.inl h0
    · exact hu
  | movedown =>
    cases motorState <;>
      simp [Event.apply, movedown, saveMotorState, delay, redirect, emit,
        PulseScan.run_append, PulseScan.step, hX] at h0 hu hd ⊢
    · exact Or.inl h0
    · exact hd
  | stop => simp [Event.isStopOrFixedMove] at he
  | moveupsteps => simp [Event.isStopOrFixedMove] at he
  | movedownsteps => simp [Event.isStopOrFixedMove] at he
  | loop =>
    cases motorState <;>
      simp [Event.apply, loop, digitalWrite, delayMicroseconds, emit,
        PulseScan.run_append, PulseScan.step, hX, ledPin, PIN_U1_EN, PIN_U1_STEP,
        PIN_U1_DIR] at h0 hu hd ⊢
    · exact h0
    · rcases hu with h | h | h <;> cases xl <;> simp_all
    · rcases hd with h | h | h <;> cases xl <;> simp_all

theorem boot_scan (p : Preferences) :
    (boot p).isMovingSteps = false ∧ (PulseScan.run (boot p).log).ok = true ∧
      (PulseScan.run (boot p).log).lastPulseDir = none := by
  cases hl : p.led_state.getD false <;>
    simp [boot, setup, powerOn, pinMode, digitalWrite, emit, loadLedState, hl, PulseScan.run,
      PulseScan.step, PulseScan.start, ledPin, PIN_U1_EN, PIN_U1_STEP, PIN_U1_DIR]

/-- C16, as stated, fails.  After booting on an empty store: `/moveup`, a pass
of `loop` (a pulse with DIR HIGH), `/stop`, `/movedown`, a pass of `loop` (a
pulse with DIR LOW) puts no delay of 200 ms between the two pulses; nor does
`/setsteps` with 1, `/moveup`, a pass, `/movedownsteps`, a pass. -/
theorem reversal_without_settle_delay :
    reversalsSettled
        (run [.moveup, .loop, .stop, .movedown, .loop] (boot emptyPreferences)).log = false ∧
    (run [.moveup, .loop, .stop, .movedown, .loop] (boot emptyPreferences)).log.drop 10 =
      [.digitalWrite PIN_U1_DIR .HIGH, .digitalWrite PIN_U1_EN .LOW,
       .digitalWrite PIN_U1_STEP .HIGH, .delayMicroseconds 150,
       .digitalWrite PIN_U1_STEP .LOW, .delayMicroseconds 150,
       .putInt "motor" "state" 0, .redirect "/",
       .putInt "motor" "state" 2, .redirect "/",
       .digitalWrite PIN_U1_DIR .LOW, .digitalWrite PIN_U1_EN .LOW,
       .digitalWrite PIN_U1_STEP .HIGH, .delayMicroseconds 150,
       .digitalWrite PIN_U1_STEP .LOW, .delayMicroseconds 150] ∧
    reversalsSettled
        (run [.setsteps (some 1), .moveup, .loop, .movedownsteps, .loop]
          (boot emptyPreferences)).log = false := by
  decide

/-- C16, amended: in every execution from boot made of `/setperiod`,
`/setsteps`, `/toggleled`, `/moveup` and `/movedown` requests and `loop`
passes (no `/stop` and no fixed-step request), every two consecutive step
pulses with different direction levels have a delay of at least 200 ms between
them. -/
theorem reversals_by_continuous_requests_are_settled (p : Preferences) (es : List Event)
    (hes : ∀ e ∈ es, e.isStopOrFixedMove = false) :
    reversalsSettled (run es (boot p)).log = true := by
  have hboot : (boot p).isMovingSteps = false ∧ (PulseScan.run (boot p).log).ok = true ∧
      ((boot p).motorState = .MOTOR_STOP → (PulseScan.run (boot p).log).lastPulseDir = none) ∧
      ((boot p).motorState = .MOTOR_UP →
        (PulseScan.run (boot p).log).lastPulseDir = none ∨
        (PulseScan.run (boot p).log).lastPulseDir = some .HIGH ∨
        (PulseScan.run (boot p).log).settled = true) ∧
      ((boot p).motorState = .MOTOR_DOWN →
        (PulseScan.run (boot p).log).lastPulseDir = none ∨
        (PulseScan.run (boot p).log).lastPulseDir = some .LOW ∨
        (PulseScan.run (boot p).log).settled = true) := by
    obtain ⟨b1, b2, b3⟩ := boot_scan p
    exact ⟨b1, b2, fun _ => b3, fun _ => Or.inl b3, fun _ => Or.inl b3⟩
  generalize boot p = s at hboot
  induction es generalizing s with
  | nil => exact hboot.2.1
  | cons e es ih =>
    exact ih (fun e he => hes e (List.mem_cons_of_mem _ he)) (e.apply s)
      (apply_keeps_reversals_settled e s (hes e (List.mem_cons_self _ _)) hboot)

/-- Witness for C16 amended: UP, a pulse, a reversal to DOWN, a pulse, after
booting on an empty store. -/
theorem reversals_by_continuous_requests_are_settled_witness :
    reversalsSettled
      (run [.moveup, .loop, .movedown, .loop] (boot emptyPreferences)).log = true :=
  reversals_by_continuous_requests_are_settled emptyPreferences
    [.moveup, .loop, .movedown, .loop] (by decide)

end Esp32Stepper
